import Mathlib

/-!
Verification development for the RNBO motor controller
(src/rnbo-motor-control.py).

The script polls an OSCQuery JSON tree over HTTP, discovers which RNBO
instance publishes its output value, and drives a PWM motor plus three
PWM LEDs from that value.  Network fetches are modelled as `Option JVal`
inputs (the parsed JSON document, or `none` for a transport/parse
failure); hardware channels are modelled by their drive levels (exact
rationals standing for the float duty ratios); the control flow of
`main`, including its `try`/`finally` blocks, is modelled as a total
function from an environment script to a final hardware state and exit
kind.
-/

/-- A JSON-like value as produced by `response.json()` in
`fetch_full_tree`: null, booleans, numbers (modelled exactly as
rationals), strings, arrays, and objects (ordered association lists,
mirroring Python dict insertion order; keys are unique in documents
produced by a JSON parser). -/
inductive JVal : Type where
  | null : JVal
  | bool (b : Bool) : JVal
  | num (q : ℚ) : JVal
  | str (s : String) : JVal
  | list (xs : List JVal) : JVal
  | dict (es : List (String × JVal)) : JVal

/-- Python truthiness of a JSON value: `None`, `False`, `0`, `""`, `[]`
and `\x7b\x7d` are falsy, everything else is truthy.  Used by the source's
`or` defaults (line 54, 57), `if not tree` (line 84) and
`if tree else None` (line 67). -/
def truthy : JVal → Bool
  | .null => false
  | .bool b => b
  | .num q => decide (q ≠ 0)
  | .str s => !s.isEmpty
  | .list xs => !xs.isEmpty
  | .dict es => !es.isEmpty

/-- Python's `d.get(k)` on a dict: the value of the first entry with the
given key, or `none` (Python `None`) when the key is missing.  On
non-dict values the source never calls `.get` (it checks
`isinstance(tree, dict)` first); we return `none` there. -/
def getField : JVal → String → Option JVal
  | .dict es, k => (es.find? (fun e => e.1 == k)).map (fun e => e.2)
  | _, _ => none

/-- Python's `a or b` applied to two optional values (results of
`d.get`): returns `a` when `a` is present and truthy, otherwise `b`.
Models line 54 `tree.get("value") or tree.get("VALUE")` and line 57
`tree.get("CONTENTS") or \x7b\x7d`. -/
def pyOr (a b : Option JVal) : Option JVal :=
  match a with
  | some v => if truthy v then some v else b
  | none => b

/-- Line 55: `val[0] if isinstance(val, list) and len(val) > 0 else val`
— take the first element of a non-empty array, otherwise keep the value
unchanged (an empty array stays an empty array). -/
def unwrapList : JVal → JVal
  | .list (x :: _) => x
  | v => v

/-- Line 53: `tree.get("FULL_PATH") == target_path` — true exactly when
the node's FULL_PATH field is present and equal, as a string, to the
target path (Python string equality; any non-string value compares
unequal). -/
def matchesPath (t : JVal) (target : String) : Bool :=
  match getField t "FULL_PATH" with
  | some (.str s) => s == target
  | _ => false

/-- Lines 54-55: the value the source returns for a node whose
FULL_PATH matched — `tree.get("value") or tree.get("VALUE")`, then the
first element of a non-empty array.  `none` models Python `None`
(both fields missing, or the chosen field falsy with the fallback
missing). -/
def extractNodeValue (t : JVal) : Option JVal :=
  (pyOr (getField t "value") (getField t "VALUE")).map unwrapList

/-- Line 57-58: `children = tree.get("CONTENTS") or \x7b\x7d` followed by
`children.values()` — the child nodes of a tree node, in dict insertion
order.  A missing or falsy CONTENTS field yields no children.  (A truthy
non-dict CONTENTS would raise AttributeError at `.values()` in Python;
such a field never occurs in OSCQuery documents, and we return `[]`
there.) -/
def childVals (t : JVal) : List JVal :=
  match pyOr (getField t "CONTENTS") (some (.dict [])) with
  | some (.dict es) => es.map (fun e => e.2)
  | _ => []

lemma list_sizeOf_pos (l : List (String × JVal)) : 0 < sizeOf l := by
  cases l <;> simp

lemma sizeOf_map_snd_le (es : List (String × JVal)) :
    sizeOf (es.map (fun e => e.2)) ≤ sizeOf es := by
  induction es with
  | nil => simp
  | cons e rest ih =>
      cases e with
      | mk k v =>
        simp only [List.map_cons, List.cons.sizeOf_spec, Prod.mk.sizeOf_spec]
        omega

lemma getField_sizeOf_lt {es : List (String × JVal)} {k : String} {v : JVal}
    (h : getField (.dict es) k = some v) : sizeOf v < sizeOf (JVal.dict es) := by
  unfold getField at h
  rcases Option.map_eq_some'.mp h with ⟨e, hfind, hev⟩
  have hmem : e ∈ es := List.mem_of_find?_eq_some hfind
  have hlt : sizeOf e < sizeOf es := List.sizeOf_lt_of_mem hmem
  cases e with
  | mk k' v' =>
    simp only [Prod.mk.sizeOf_spec] at hlt
    subst hev
    simp only [JVal.dict.sizeOf_spec]
    omega

lemma childVals_sizeOf_lt (es : List (String × JVal)) :
    sizeOf (childVals (JVal.dict es)) < sizeOf (JVal.dict es) := by
  unfold childVals
  have hpos : 0 < sizeOf es := list_sizeOf_pos es
  cases hg : getField (.dict es) "CONTENTS" with
  | none =>
      simp only [pyOr, hg, List.map_nil, JVal.dict.sizeOf_spec]
      simp only [List.nil.sizeOf_spec]
      omega
  | some v =>
      by_cases ht : truthy v
      · simp only [pyOr, hg, ht, if_pos]
        have hv := getField_sizeOf_lt hg
        cases v with
        | dict ces =>
            have h1 := sizeOf_map_snd_le ces
            simp only [JVal.dict.sizeOf_spec] at hv ⊢
            omega
        | null => simp only [List.nil.sizeOf_spec, JVal.dict.sizeOf_spec]; omega
        | bool b => simp only [List.nil.sizeOf_spec, JVal.dict.sizeOf_spec]; omega
        | num q => simp only [List.nil.sizeOf_spec, JVal.dict.sizeOf_spec]; omega
        | str s => simp only [List.nil.sizeOf_spec, JVal.dict.sizeOf_spec]; omega
        | list xs => simp only [List.nil.sizeOf_spec, JVal.dict.sizeOf_spec]; omega
      · simp only [pyOr, hg, ht, if_neg, Bool.false_eq_true, not_false_iff,
          List.map_nil, JVal.dict.sizeOf_spec]
        simp only [List.nil.sizeOf_spec]
        omega

mutual

/-- Lines 48-62, `search_tree_for_value(tree, target_path)`: recursive
pre-order search.  A non-dict value yields `None`; a node whose
FULL_PATH equals the target yields that node's value (lines 54-55,
possibly `None`, without visiting its children); otherwise the child
nodes are searched in insertion order and the first non-`None` result
is returned. -/
def search_tree_for_value (tree : JVal) (target : String) : Option JVal :=
  match tree with
  | .dict es =>
      if matchesPath (.dict es) target then extractNodeValue (.dict es)
      else searchChildren (childVals (.dict es)) target
  | _ => none
termination_by sizeOf tree
decreasing_by
  exact childVals_sizeOf_lt es

/-- Lines 58-62: the `for child in children.values()` loop — search each
child in order, returning the first non-`None` result, else `None`. -/
def searchChildren (cs : List JVal) (target : String) : Option JVal :=
  match cs with
  | [] => none
  | c :: rest =>
      match search_tree_for_value c target with
      | some r => some r
      | none => searchChildren rest target
termination_by sizeOf cs
decreasing_by
  · simp only [List.cons.sizeOf_spec]; omega
  · simp only [List.cons.sizeOf_spec]; omega

end

mutual

/-- The pre-order node list of a tree: the node itself, then the
pre-order lists of its children in insertion order.  This is the
traversal order of `search_tree_for_value`, used to state the
first-match specification. -/
def preorder (t : JVal) : List JVal :=
  match t with
  | .dict es => .dict es :: preorderList (childVals (.dict es))
  | _ => [t]
termination_by sizeOf t
decreasing_by
  exact childVals_sizeOf_lt es

/-- Pre-order node lists of a list of sibling subtrees, concatenated in
order. -/
def preorderList (cs : List JVal) : List JVal :=
  match cs with
  | [] => []
  | c :: rest => preorder c ++ preorderList rest
termination_by sizeOf cs
decreasing_by
  · simp only [List.cons.sizeOf_spec]; omega
  · simp only [List.cons.sizeOf_spec]; omega

end

/-- Numeric value of a decimal digit character. -/
def digitVal (c : Char) : Nat := c.toNat - 48

/-- Value of a digit string read in base 10. -/
def digitsToNat (cs : List Char) : Nat :=
  cs.foldl (fun a c => 10 * a + digitVal c) 0

/-- Decimal body of a Python float literal: digits, optionally split by
one decimal point, with at least one digit present ("12", "12.", ".5",
"12.5"). -/
def parseDecimal (cs : List Char) : Option ℚ :=
  let intPart := cs.takeWhile Char.isDigit
  let rest := cs.dropWhile Char.isDigit
  match rest with
  | [] =>
      if intPart.isEmpty then none
      else some (digitsToNat intPart)
  | '.' :: frac =>
      if frac.all Char.isDigit && !(intPart.isEmpty && frac.isEmpty) then
        some ((digitsToNat intPart : ℚ) +
          (digitsToNat frac : ℚ) / ((10 : ℚ) ^ frac.length))
      else none
  | _ => none

/-- Python's `float(s)` on a string: optional surrounding spaces,
optional sign, then a decimal number.  Returns `none` where Python
raises ValueError.  (Exponent notation, "inf"/"nan" and exotic
whitespace are omitted; the source never receives them — OSCQuery
string values that reach `float` are either numeric or rejected.) -/
def pyFloatOfString (s : String) : Option ℚ :=
  let cs := (s.data.dropWhile (fun c => c == ' ')).reverse.dropWhile (fun c => c == ' ') |>.reverse
  match cs with
  | '-' :: rest => (parseDecimal rest).map (fun q => -q)
  | '+' :: rest => parseDecimal rest
  | _ => parseDecimal cs

/-- Python's `float(val)` at line 126: numbers convert to themselves,
booleans to 1 or 0, numeric strings parse; `None`, lists and dicts
raise TypeError and non-numeric strings raise ValueError, both modelled
as `none` (the source catches exactly these at line 132). -/
def pyFloat : JVal → Option ℚ
  | .num q => some q
  | .bool b => some (if b then 1 else 0)
  | .str s => pyFloatOfString s
  | _ => none

/-- The ValueExtractor pipeline applied to one node value: the
first-of-sequence step of line 55 followed by the float coercion of
line 126. -/
def extractNumeric (v : JVal) : Option ℚ :=
  pyFloat (unwrapList v)

/-- Line 126: `max(0, min(100, float(val)))` — the percentage clamped
to [0, 100] by saturation. -/
def clampDuty (x : ℚ) : ℚ := max 0 (min 100 x)

/-- The drive levels of the physical channels: the motor on pin 5 and
the three LEDs on pins 26, 19, 13.  Each level is the PWM duty cycle in
[0, 1]; `gpiozero` devices start at level 0 on construction and `off()`
writes level 0. -/
structure HWState where
  motor : ℚ
  leds : List ℚ
deriving Repr, DecidableEq

/-- Hardware state right after line 106-107 construct the devices:
everything off. -/
def initHW : HWState := ⟨0, [0, 0, 0]⟩

/-- Write the same level to every LED channel (the `for led in leds`
loops at lines 78-79, 91-92, 97-98, 129-130, 144-145). -/
def setAllLeds (st : HWState) (r : ℚ) : HWState :=
  { st with leds := st.leds.map (fun _ => r) }

/-- Lines 126-130, the ActuationController: clamp the percentage, map
it to a ratio by dividing by 100, and write that one ratio to the motor
and to every LED. -/
def actuate (st : HWState) (x : ℚ) : HWState :=
  let pwm := clampDuty x / 100
  { motor := pwm, leds := st.leds.map (fun _ => pwm) }

/-- Lines 143-145, the `finally` block of `main`: `motor.off()` and
`led.off()` for every LED — every channel to level 0. -/
def hwOff (st : HWState) : HWState :=
  { motor := 0, leds := st.leds.map (fun _ => 0) }

/-- Lines 64-67, `get_parameter_value`: fetch the tree (modelled by the
`fetch` argument: the parsed document, or `none` on transport/HTTP/parse
failure) and search it — `search_tree_for_value(tree, path) if tree
else None`, so a falsy document (for example an empty object) is also
treated as no value. -/
def get_parameter_value (fetch : Option JVal) (path : String) : Option JVal :=
  match fetch with
  | some tree => if truthy tree then search_tree_for_value tree path else none
  | none => none

/-- Outcome of one steady-state cycle, standing for the log line the
source emits: `actuated r` for line 131 (motor and LEDs set), and the
two locally recovered skip conditions — `invalidValue` for the
ValueError/TypeError warning at line 133, `noValue` for the warning at
line 135. -/
inductive CycleOutcome where
  | actuated (r : ℚ)
  | invalidValue
  | noValue
deriving Repr, DecidableEq

/-- Lines 122-135, one iteration of the steady-state loop: get the
value at the resolved path from this cycle's fetch; if absent, skip
(line 135 warning); if the float coercion fails, skip (line 133
warning); otherwise clamp, scale and write the ratio to all channels.
The cycle never raises: both skip conditions leave the hardware state
untouched and are only logged. -/
def steadyCycle (path : String) (st : HWState) (fetch : Option JVal) :
    HWState × CycleOutcome :=
  match get_parameter_value fetch path with
  | some v =>
      match pyFloat v with
      | some x =>
          let pwm := clampDuty x / 100
          ({ motor := pwm, leds := st.leds.map (fun _ => pwm) }, .actuated pwm)
      | none => (st, .invalidValue)
  | none => (st, .noValue)

/-- The steady-state loop run over a finite script of fetch outcomes,
threading the hardware state; the resolved path is fixed once before
the loop (line 113) and is never recomputed inside it. -/
def runLoop (path : String) (st : HWState) (fetches : List (Option JVal)) : HWState :=
  fetches.foldl (fun s f => (steadyCycle path s f).1) st

/-- Line 18 with line 88: the candidate output path of RNBO instance
`i`, `"/rnbo/inst/\x7b\x7d/messages/out/output1".format(i)`. -/
def TARGET_PATH_BASE (i : Nat) : String :=
  "/rnbo/inst/" ++ toString i ++ "/messages/out/output1"

/-- Lines 87-94, the candidate probe of one discovery attempt: for
`i in range(2)`, return the first candidate path whose value is present
in the fetched tree, else `none`. -/
def probeCandidates (tree : JVal) : Option String :=
  (List.range 2).findSome? (fun i =>
    if (search_tree_for_value tree (TARGET_PATH_BASE i)).isSome then
      some (TARGET_PATH_BASE i)
    else none)

/-- Line 79: the LED level of one blink phase — full brightness or off. -/
def blinkLevel (b : Bool) : ℚ := if b then 1 else 0

/-- Lines 69-101, `get_dynamic_output_path`: one discovery attempt per
element of `fetches` (the while-loop runs while the deadline has not
passed; the list length encodes how many attempts fit).  Each attempt
sets all LEDs to the blink level, toggles the phase, fetches, skips
falsy or failed fetches, and probes the candidates; on success the LEDs
are switched off and the path returned.  When the script is exhausted
(deadline passed — or the loop is aborted by an exception), the
`finally` block switches the LEDs off and the function yields `none`.
The LEDs here are the same physical pins as `main`'s indicator
channels. -/
def get_dynamic_output_path (st : HWState) (blink : Bool) :
    List (Option JVal) → HWState × Option String
  | [] => (setAllLeds st 0, none)
  | f :: rest =>
      let st1 := setAllLeds st (blinkLevel blink)
      match f with
      | none => get_dynamic_output_path st1 (!blink) rest
      | some t =>
          if truthy t then
            match probeCandidates t with
            | some p => (setAllLeds st1 0, some p)
            | none => get_dynamic_output_path st1 (!blink) rest
          else get_dynamic_output_path st1 (!blink) rest

/-- How the steady-state loop ends (it has no normal exit:
`while True`): a KeyboardInterrupt — caught at line 139 — or any other
unhandled exception propagating out of the `try` body. -/
inductive LoopEnd where
  | interrupted
  | errored
deriving Repr, DecidableEq

/-- Environment script for one run of `main`: whether hostname
resolution succeeds (lines 109-111), the discovery attempts' fetch
outcomes, whether discovery is aborted by an exception (cancellation or
other unhandled failure) instead of reaching its deadline when nothing
resolves, the steady-state cycles' fetch outcomes, and how the loop
ends after them. -/
structure Env where
  resolveOk : Bool
  discFetches : List (Option JVal)
  discAborted : Bool
  loopFetches : List (Option JVal)
  loopEnd : LoopEnd

/-- How the process ends, standing for the terminal log line and exit
status of each exit path of `main`. -/
inductive ExitKind where
  | resolveFail
  | discAborted
  | discTimeout
  | loopInterrupted
  | loopErrored
deriving Repr, DecidableEq

/-- Whether the Python process ends with a non-zero exit indication on
each exit path: a plain `return` from `main` ends the script with
status 0 (lines 111, 116, and the fall-through after the `finally` when
KeyboardInterrupt was caught at line 139); an exception propagating out
of `main` makes the interpreter exit non-zero. -/
def processExitsNonzero : ExitKind → Bool
  | .resolveFail => false
  | .discAborted => true
  | .discTimeout => false
  | .loopInterrupted => false
  | .loopErrored => true

/-- Lines 105-146, `main`, as a function of the environment script.
Hardware handles are constructed first (all levels 0).  If resolution
fails, `main` returns at line 111 — no channel was ever driven.  Then
discovery runs; if it yields no path, `main` returns at line 116 (or
the aborting exception propagates) — the discovery `finally` has
already switched the LEDs off.  Otherwise the steady-state loop runs
the scripted cycles and ends by interrupt or error; in both cases the
`finally` block at lines 142-145 turns the motor and every LED off. -/
def runMain (env : Env) : HWState × ExitKind :=
  let st0 := initHW
  if !env.resolveOk then (st0, .resolveFail)
  else
    match get_dynamic_output_path st0 true env.discFetches with
    | (st1, some path) =>
        let st2 := runLoop path st1 env.loopFetches
        (hwOff st2,
          match env.loopEnd with
          | .interrupted => .loopInterrupted
          | .errored => .loopErrored)
    | (st1, none) =>
        if env.discAborted then (st1, .discAborted) else (st1, .discTimeout)

lemma jval_sizeOf_pos (t : JVal) : 0 < sizeOf t := by
  cases t <;> simp

lemma jlist_sizeOf_pos (cs : List JVal) : 0 < sizeOf cs := by
  cases cs <;> simp

lemma nonDict_spec (target : String) {t : JVal}
    (hs : search_tree_for_value t target = none)
    (hp : preorder t = [t])
    (hm : matchesPath t target = false) :
    ((∀ n ∈ preorder t, matchesPath n target = false) →
        search_tree_for_value t target = none) ∧
    ((preorder t).countP (fun n => matchesPath n target) ≤ 1 →
        search_tree_for_value t target =
          ((preorder t).find? (fun n => matchesPath n target)).bind extractNodeValue) := by
  refine ⟨fun _ => hs, fun _ => ?_⟩
  rw [hp, hs, List.find?_cons_of_neg _ (by simp [hm])]
  simp

lemma searchSpecAux (target : String) :
    ∀ N : Nat,
      (∀ t : JVal, sizeOf t ≤ N →
        ((∀ n ∈ preorder t, matchesPath n target = false) →
            search_tree_for_value t target = none) ∧
        ((preorder t).countP (fun n => matchesPath n target) ≤ 1 →
            search_tree_for_value t target =
              ((preorder t).find? (fun n => matchesPath n target)).bind extractNodeValue)) ∧
      (∀ cs : List JVal, sizeOf cs ≤ N →
        ((∀ n ∈ preorderList cs, matchesPath n target = false) →
            searchChildren cs target = none) ∧
        ((preorderList cs).countP (fun n => matchesPath n target) ≤ 1 →
            searchChildren cs target =
              ((preorderList cs).find? (fun n => matchesPath n target)).bind extractNodeValue)) := by
  intro N
  induction N with
  | zero =>
      constructor
      · intro t ht
        exact absurd ht (by have := jval_sizeOf_pos t; omega)
      · intro cs hcs
        exact absurd hcs (by have := jlist_sizeOf_pos cs; omega)
  | succ N ih =>
      constructor
      · intro t ht
        cases t with
        | null =>
            have h1 : search_tree_for_value JVal.null target = none := by
              rw [search_tree_for_value]; simp
            have h2 : preorder JVal.null = [JVal.null] := by
              rw [preorder]; simp
            exact nonDict_spec target h1 h2 (by simp [matchesPath, getField])
        | bool b =>
            have h1 : search_tree_for_value (JVal.bool b) target = none := by
              rw [search_tree_for_value]; simp
            have h2 : preorder (JVal.bool b) = [JVal.bool b] := by
              rw [preorder]; simp
            exact nonDict_spec target h1 h2 (by simp [matchesPath, getField])
        | num q =>
            have h1 : search_tree_for_value (JVal.num q) target = none := by
              rw [search_tree_for_value]; simp
            have h2 : preorder (JVal.num q) = [JVal.num q] := by
              rw [preorder]; simp
            exact nonDict_spec target h1 h2 (by simp [matchesPath, getField])
        | str s =>
            have h1 : search_tree_for_value (JVal.str s) target = none := by
              rw [search_tree_for_value]; simp
            have h2 : preorder (JVal.str s) = [JVal.str s] := by
              rw [preorder]; simp
            exact nonDict_spec target h1 h2 (by simp [matchesPath, getField])
        | list xs =>
            have h1 : search_tree_for_value (JVal.list xs) target = none := by
              rw [search_tree_for_value]; simp
            have h2 : preorder (JVal.list xs) = [JVal.list xs] := by
              rw [preorder]; simp
            exact nonDict_spec target h1 h2 (by simp [matchesPath, getField])
        | dict es =>
            have hch : sizeOf (childVals (JVal.dict es)) ≤ N := by
              have := childVals_sizeOf_lt es
              simp only [JVal.dict.sizeOf_spec] at this ht
              omega
            have IHl := ih.2 (childVals (JVal.dict es)) hch
            by_cases hm : matchesPath (.dict es) target
            · constructor
              · intro hall
                have hfalse := hall (.dict es)
                  (by rw [preorder]; exact List.mem_cons_self _ _)
                simp [hfalse] at hm
              · intro _
                rw [search_tree_for_value, if_pos hm, preorder]
                simp [hm]
            · have hunf : search_tree_for_value (.dict es) target =
                  searchChildren (childVals (.dict es)) target := by
                rw [search_tree_for_value, if_neg hm]
              constructor
              · intro hall
                rw [hunf]
                exact IHl.1 (fun n hn => hall n
                  (by rw [preorder]; exact List.mem_cons_of_mem _ hn))
              · intro hcount
                rw [preorder] at hcount ⊢
                rw [List.countP_cons] at hcount
                simp only [hm, Bool.false_eq_true, if_false] at hcount
                have hfind : List.find? (fun n => matchesPath n target)
                    (JVal.dict es :: preorderList (childVals (JVal.dict es))) =
                    List.find? (fun n => matchesPath n target)
                      (preorderList (childVals (JVal.dict es))) := by
                  simp [hm]
                rw [hunf, hfind]
                exact IHl.2 (by omega)
      · intro cs hcs
        cases cs with
        | nil =>
            constructor
            · intro _
              rw [searchChildren]
            · intro _
              rw [searchChildren, preorderList]
              simp
        | cons c rest =>
            have hc : sizeOf c ≤ N := by
              have h1 := jlist_sizeOf_pos rest
              simp only [List.cons.sizeOf_spec] at hcs
              omega
            have hrest : sizeOf rest ≤ N := by
              have h1 := jval_sizeOf_pos c
              simp only [List.cons.sizeOf_spec] at hcs
              omega
            have IHt := ih.1 c hc
            have IHrest := ih.2 rest hrest
            have hunf : searchChildren (c :: rest) target =
                match search_tree_for_value c target with
                | some r => some r
                | none => searchChildren rest target := by rw [searchChildren]
            have hpre : preorderList (c :: rest) = preorder c ++ preorderList rest := by
              rw [preorderList]
            constructor
            · intro hall
              rw [hpre] at hall
              have hallc : ∀ n ∈ preorder c, matchesPath n target = false :=
                fun n hn => hall n (List.mem_append_left _ hn)
              have hallr : ∀ n ∈ preorderList rest, matchesPath n target = false :=
                fun n hn => hall n (List.mem_append_right _ hn)
              rw [hunf, IHt.1 hallc]
              exact IHrest.1 hallr
            · intro hcount
              rw [hpre] at hcount ⊢
              rw [List.countP_append] at hcount
              cases hf : (preorder c).find? (fun n => matchesPath n target) with
              | none =>
                  have hallc : ∀ n ∈ preorder c, matchesPath n target = false := by
                    intro n hn
                    have := List.find?_eq_none.mp hf n hn
                    simpa using this
                  rw [hunf, IHt.1 hallc, List.find?_append, hf]
                  simp only [Option.none_or]
                  exact IHrest.2 (by omega)
              | some m =>
                  have hpm0 := List.find?_some hf
                  have hpm : matchesPath m target = true := hpm0
                  have hmem : m ∈ preorder c := List.mem_of_find?_eq_some hf
                  have hc1 : 1 ≤ (preorder c).countP (fun n => matchesPath n target) := by
                    by_contra hcon
                    have h0 : (preorder c).countP (fun n => matchesPath n target) = 0 := by
                      omega
                    have := List.countP_eq_zero.mp h0 m hmem
                    simp [hpm] at this
                  have hallr : ∀ n ∈ preorderList rest, matchesPath n target = false := by
                    intro n hn
                    have h0 : (preorderList rest).countP
                        (fun n => matchesPath n target) = 0 := by omega
                    have := List.countP_eq_zero.mp h0 n hn
                    simpa using this
                  have hsc : search_tree_for_value c target = extractNodeValue m := by
                    have h2 := IHt.2 (by omega)
                    rw [hf] at h2
                    simpa using h2
                  rw [List.find?_append, hf]
                  simp only [Option.or_some]
                  cases hx : extractNodeValue m with
                  | some v =>
                      rw [hunf, hsc, hx]
                      simp [hx]
                  | none =>
                      rw [hunf, hsc, hx]
                      rw [IHrest.1 hallr]
                      simp [hx]

/-- The specification-side traversal invariant of a snapshot: at most
one node of the pre-order traversal matches the target path.  This is
implied by the data-model invariant that FULL_PATH values are unique
across a snapshot. -/
def atMostOneMatch (t : JVal) (target : String) : Prop :=
  (preorder t).countP (fun n => matchesPath n target) ≤ 1

/-- C3: on every tree snapshot whose paths are unique (at most one
pre-order node matches the target, the snapshot invariant) and for
every exact-path matcher, `search_tree_for_value` traverses depth-first
in pre-order — the current node is tested before its children, children
in insertion order — and returns the value of the first node in that
order satisfying the matcher, or `none` when no node satisfies it. -/
theorem search_tree_first_match (t : JVal) (target : String)
    (huniq : atMostOneMatch t target) :
    search_tree_for_value t target =
      ((preorder t).find? (fun n => matchesPath n target)).bind extractNodeValue :=
  ((searchSpecAux target (sizeOf t)).1 t le_rfl).2 huniq

/-- The child node of the fixture tree of the specification:
path "/root/a" carrying value [42]. -/
def nodeA : JVal := .dict [("FULL_PATH", .str "/root/a"), ("value", .list [.num 42])]

/-- The fixture tree of the specification: root "/root" with single
child `nodeA`. -/
def fixtureA : JVal := .dict [("FULL_PATH", .str "/root"), ("CONTENTS", .dict [("a", nodeA)])]

/-- Witness for C3 at the specification's fixture tree: the hypothesis
holds and the search returns the value 42 of the first (only) matching
node. -/
theorem search_tree_first_match_witness :
    atMostOneMatch fixtureA "/root/a" ∧
    search_tree_for_value fixtureA "/root/a" = some (.num 42) := by
  have hpre : preorder fixtureA = [fixtureA, nodeA] := by
    simp [preorder, preorderList, fixtureA, nodeA, childVals, getField, pyOr, truthy]
  have hcount : atMostOneMatch fixtureA "/root/a" := by
    unfold atMostOneMatch
    rw [hpre]
    simp [List.countP_cons, matchesPath, getField, fixtureA, nodeA]
  refine ⟨hcount, ?_⟩
  rw [search_tree_first_match fixtureA "/root/a" hcount, hpre]
  simp [matchesPath, getField, fixtureA, nodeA, extractNodeValue, pyOr, truthy, unwrapList]

lemma clampDuty_nonneg (p : ℚ) : 0 ≤ clampDuty p := le_max_left _ _

lemma clampDuty_le_100 (p : ℚ) : clampDuty p ≤ 100 :=
  max_le (by norm_num) (min_le_left _ _)

lemma clampDuty_of_nonpos {p : ℚ} (h : p ≤ 0) : clampDuty p = 0 := by
  unfold clampDuty
  rw [min_eq_right (le_trans h (by norm_num)), max_eq_left h]

lemma clampDuty_of_ge {p : ℚ} (h : 100 ≤ p) : clampDuty p = 100 := by
  unfold clampDuty
  rw [min_eq_left h]
  exact max_eq_right (by norm_num)

lemma clampDuty_of_range {p : ℚ} (h0 : 0 ≤ p) (h1 : p ≤ 100) : clampDuty p = p := by
  unfold clampDuty
  rw [min_eq_right h1, max_eq_right h0]

lemma actuate_leds (st : HWState) (p : ℚ) :
    ∀ r ∈ (actuate st p).leds, r = clampDuty p / 100 := by
  intro r hr
  simp only [actuate, List.mem_map] at hr
  obtain ⟨a, _, rfl⟩ := hr
  rfl

/-- C2: actuation clamps the input percentage into [0, 100] by
saturation (below 0 to 0, above 100 to 100, in-range values unchanged),
computes the drive ratio clampDuty p / 100, which lies in [0, 1], and
writes that one ratio to the motor channel and to every LED channel; in
particular a -5 input yields ratio 0 and a 200 input yields ratio 1 on
all channels.  Percentages are modelled as exact rationals. -/
theorem actuate_clamps_and_mirrors (p : ℚ) (st : HWState) :
    0 ≤ clampDuty p ∧ clampDuty p ≤ 100 ∧
    (p < 0 → clampDuty p = 0) ∧
    (100 < p → clampDuty p = 100) ∧
    (0 ≤ p → p ≤ 100 → clampDuty p = p) ∧
    0 ≤ clampDuty p / 100 ∧ clampDuty p / 100 ≤ 1 ∧
    (actuate st p).motor = clampDuty p / 100 ∧
    (∀ r ∈ (actuate st p).leds, r = clampDuty p / 100) ∧
    (actuate st (-5)).motor = 0 ∧ (∀ r ∈ (actuate st (-5)).leds, r = 0) ∧
    (actuate st 200).motor = 1 ∧ (∀ r ∈ (actuate st 200).leds, r = 1) := by
  have hneg : clampDuty (-5 : ℚ) = 0 := clampDuty_of_nonpos (by norm_num)
  have hpos : clampDuty (200 : ℚ) = 100 := clampDuty_of_ge (by norm_num)
  refine ⟨clampDuty_nonneg p, clampDuty_le_100 p,
    fun h => clampDuty_of_nonpos (le_of_lt h),
    fun h => clampDuty_of_ge (le_of_lt h),
    fun h0 h1 => clampDuty_of_range h0 h1,
    div_nonneg (clampDuty_nonneg p) (by norm_num),
    (div_le_one (by norm_num)).mpr (clampDuty_le_100 p),
    rfl, actuate_leds st p, ?_, ?_, ?_, ?_⟩
  · show clampDuty (-5) / 100 = 0
    rw [hneg]; norm_num
  · intro r hr
    have := actuate_leds st (-5) r hr
    rw [this, hneg]; norm_num
  · show clampDuty 200 / 100 = 1
    rw [hpos]; norm_num
  · intro r hr
    have := actuate_leds st 200 r hr
    rw [this, hpos]; norm_num

/-- Witness for C2 at the concrete inputs -5 and 200 named by the
claim. -/
theorem actuate_clamps_witness :
    clampDuty (-5) = 0 ∧ clampDuty 200 = 100 ∧
    (actuate initHW (-5)).motor = 0 ∧ (actuate initHW 200).motor = 1 := by
  obtain ⟨_, _, h3, _, _, _, _, _, _, h10, _, h12, _⟩ :=
    actuate_clamps_and_mirrors (-5 : ℚ) initHW
  obtain ⟨_, _, _, g4, _, _, _, _, _, _, _, g12, _⟩ :=
    actuate_clamps_and_mirrors (200 : ℚ) initHW
  exact ⟨h3 (by norm_num), g4 (by norm_num), h10, g12⟩

/-- C6: value extraction takes the first element of a non-empty
sequence; an empty sequence, a null, and a non-numeric string all
extract to absent; a numeric scalar extracts to itself.  Concretely,
[7] yields 7, [] yields absent, "abc" yields absent and 3.5 yields 3.5.
(In the source the empty sequence passes through line 55 unchanged and
is then rejected by the float coercion of line 126, so the composite
result is absent.) -/
theorem extractNumeric_spec :
    (∀ (x : JVal) (xs : List JVal), extractNumeric (.list (x :: xs)) = pyFloat x) ∧
    extractNumeric (.list []) = none ∧
    extractNumeric .null = none ∧
    (∀ q : ℚ, extractNumeric (.num q) = some q) ∧
    extractNumeric (.list [.num 7]) = some 7 ∧
    extractNumeric (.str "abc") = none ∧
    extractNumeric (.num 3.5) = some 3.5 :=
  ⟨fun x xs => rfl, rfl, rfl, fun q => rfl, rfl, by decide, rfl⟩

/-- C5: in every steady-state cycle whose fetch fails or whose resolved
value is absent (`get_parameter_value` yields none) or non-numeric
(float coercion fails), the cycle performs no actuation — the hardware
state, motor and LED ratios included, is returned exactly unchanged —
and the outcome is one of the two logged skip outcomes rather than a
process failure (the cycle function is total: it always returns and
never escalates). -/
theorem steadyCycle_skip (path : String) (st : HWState) (fetch : Option JVal)
    (h : get_parameter_value fetch path = none ∨
         ∃ v, get_parameter_value fetch path = some v ∧ pyFloat v = none) :
    (steadyCycle path st fetch).1 = st ∧
    ((steadyCycle path st fetch).2 = CycleOutcome.noValue ∨
     (steadyCycle path st fetch).2 = CycleOutcome.invalidValue) := by
  unfold steadyCycle
  rcases h with h | ⟨v, hv, hf⟩
  · rw [h]
    exact ⟨rfl, Or.inl rfl⟩
  · rw [hv]
    dsimp only
    rw [hf]
    exact ⟨rfl, Or.inr rfl⟩

/-- Witness for C5 at a failing fetch. -/
theorem steadyCycle_skip_witness :
    get_parameter_value none "/x" = none ∧
    (steadyCycle "/x" initHW none).1 = initHW ∧
    (steadyCycle "/x" initHW none).2 = CycleOutcome.noValue := by
  have h := steadyCycle_skip "/x" initHW none (Or.inl rfl)
  exact ⟨rfl, h.1, rfl⟩

/-- Fixture for C9: a node at path "/x" carrying the value sequence
[60]. -/
def fixtureLoop : JVal := .dict [("FULL_PATH", .str "/x"), ("value", .list [.num 60])]

/-- C9: the resolved path persists across transient fetch failures —
running a failing cycle and then a successful one with the same path
parameter (the path is bound once, before the loop, and never
recomputed) leaves the state unchanged after the failure and actuates
on the first successful cycle, with no discovery phase in between. -/
theorem resolved_path_persists (path : String) (st : HWState) (good : Option JVal)
    (v : JVal) (x : ℚ)
    (hv : get_parameter_value good path = some v)
    (hx : pyFloat v = some x) :
    steadyCycle path st none = (st, CycleOutcome.noValue) ∧
    (steadyCycle path st good).2 = CycleOutcome.actuated (clampDuty x / 100) ∧
    runLoop path st [none, good] = actuate st x := by
  refine ⟨rfl, ?_, ?_⟩
  · unfold steadyCycle
    rw [hv]
    dsimp only
    rw [hx]
  · show runLoop path st [none, good] = actuate st x
    unfold runLoop
    simp only [List.foldl_cons, List.foldl_nil]
    have h1 : (steadyCycle path st none).1 = st := rfl
    rw [h1]
    unfold steadyCycle
    rw [hv]
    dsimp only
    rw [hx]
    rfl

/-- Witness for C9: a failed fetch followed by a fetch of a tree whose
"/x" node carries [60] actuates at 60 percent. -/
theorem resolved_path_persists_witness :
    get_parameter_value (some fixtureLoop) "/x" = some (.num 60) ∧
    pyFloat (.num 60) = some 60 ∧
    runLoop "/x" initHW [none, some fixtureLoop] = actuate initHW 60 := by
  have hv : get_parameter_value (some fixtureLoop) "/x" = some (.num 60) := by
    simp [get_parameter_value, truthy, fixtureLoop, search_tree_for_value,
      matchesPath, getField, extractNodeValue, pyOr, unwrapList]
  have h := resolved_path_persists "/x" initHW (some fixtureLoop) (.num 60) 60 hv rfl
  exact ⟨hv, rfl, h.2.2⟩

/-- Fixture for C10: a node at path "/x" whose value field holds the
bare scalar 0 (falsy in Python) and which has no VALUE field. -/
def fixtureScalarZero : JVal := .dict [("FULL_PATH", .str "/x"), ("value", .num 0)]

/-- Fixture for C10: the same node publishing 0 as the one-element
sequence [0] (a non-empty list is truthy). -/
def fixtureSeqZero : JVal := .dict [("FULL_PATH", .str "/x"), ("value", .list [.num 0])]

lemma clampDuty_zero_div : clampDuty 0 / 100 = 0 := by
  rw [clampDuty_of_range le_rfl (by norm_num)]
  norm_num

/-- C10: a falsy scalar in the value field (0, False, "") makes line
54's `or` fall through to the VALUE field — when that is also missing
the lookup yields absent, so a remote value of exactly 0 published as a
bare scalar is skipped (cycle leaves the state untouched, outcome is
the no-value log), while the same value published as the one-element
sequence [0] is truthy, extracts to 0 and drives the motor and every
LED to ratio 0. -/
theorem falsy_value_falls_through :
    (∀ v : JVal, truthy v = false → pyOr (some v) none = none) ∧
    (∀ v w : JVal, truthy v = false → pyOr (some v) (some w) = some w) ∧
    truthy (.num 0) = false ∧ truthy (.bool false) = false ∧ truthy (.str "") = false ∧
    extractNodeValue fixtureScalarZero = none ∧
    (∀ st : HWState, steadyCycle "/x" st (some fixtureScalarZero) = (st, CycleOutcome.noValue)) ∧
    extractNodeValue fixtureSeqZero = some (.num 0) ∧
    (∀ st : HWState,
      (steadyCycle "/x" st (some fixtureSeqZero)).2 = CycleOutcome.actuated 0 ∧
      (steadyCycle "/x" st (some fixtureSeqZero)).1.motor = 0 ∧
      ∀ r ∈ (steadyCycle "/x" st (some fixtureSeqZero)).1.leds, r = 0) := by
  have hget0 : get_parameter_value (some fixtureScalarZero) "/x" = none := by
    simp [get_parameter_value, truthy, fixtureScalarZero, search_tree_for_value,
      matchesPath, getField, extractNodeValue, pyOr, unwrapList]
  have hget1 : get_parameter_value (some fixtureSeqZero) "/x" = some (.num 0) := by
    simp [get_parameter_value, truthy, fixtureSeqZero, search_tree_for_value,
      matchesPath, getField, extractNodeValue, pyOr, unwrapList]
  refine ⟨?_, ?_, rfl, rfl, rfl, ?_, ?_, ?_, ?_⟩
  · intro v hv
    simp [pyOr, hv]
  · intro v w hv
    simp [pyOr, hv]
  · simp [extractNodeValue, fixtureScalarZero, getField, pyOr, truthy]
  · intro st
    unfold steadyCycle
    rw [hget0]
  · simp [extractNodeValue, fixtureSeqZero, getField, pyOr, truthy, unwrapList]
  · intro st
    have hcy : steadyCycle "/x" st (some fixtureSeqZero) =
        ({ motor := clampDuty 0 / 100,
           leds := st.leds.map (fun _ => clampDuty 0 / 100) },
         CycleOutcome.actuated (clampDuty 0 / 100)) := by
      unfold steadyCycle
      rw [hget1]
      rfl
    refine ⟨?_, ?_, ?_⟩
    · rw [hcy]
      simp [clampDuty_zero_div]
    · rw [hcy]
      simp [clampDuty_zero_div]
    · intro r hr
      rw [hcy] at hr
      simp only [List.mem_map] at hr
      obtain ⟨a, _, rfl⟩ := hr
      exact clampDuty_zero_div

/-- Witness for C10 at the two fixture nodes. -/
theorem falsy_value_falls_through_witness :
    truthy (.num 0) = false ∧
    pyOr (some (.num 0)) none = none ∧
    steadyCycle "/x" initHW (some fixtureScalarZero) = (initHW, CycleOutcome.noValue) ∧
    (steadyCycle "/x" initHW (some fixtureSeqZero)).2 = CycleOutcome.actuated 0 := by
  obtain ⟨h1, _, h3, _, _, _, h7, _, h9⟩ := falsy_value_falls_through
  exact ⟨h3, h1 (.num 0) h3, h7 initHW, (h9 initHW).1⟩

/-- Fixture node for C4: the output node of RNBO instance `i` carrying
value [q]. -/
def nodeInst (i : Nat) (q : ℚ) : JVal :=
  .dict [("FULL_PATH", .str (TARGET_PATH_BASE i)), ("value", .list [.num q])]

/-- Fixture tree for C4 in which only instance 1's candidate path is
present. -/
def treeOnly1 : JVal :=
  .dict [("FULL_PATH", .str "/"), ("CONTENTS", .dict [("i1", nodeInst 1 5)])]

/-- Fixture tree for C4 in which both candidate paths are present. -/
def treeBoth : JVal :=
  .dict [("FULL_PATH", .str "/"), ("CONTENTS", .dict [("i0", nodeInst 0 3), ("i1", nodeInst 1 5)])]

lemma search_nodeInst (i j : Nat) (q : ℚ) :
    search_tree_for_value (nodeInst i q) (TARGET_PATH_BASE j) =
      if (TARGET_PATH_BASE i == TARGET_PATH_BASE j) then some (.num q) else none := by
  by_cases h : (TARGET_PATH_BASE i == TARGET_PATH_BASE j) = true
  · simp [nodeInst, search_tree_for_value, matchesPath, getField, h,
      extractNodeValue, pyOr, truthy, unwrapList, childVals]
  · simp only [Bool.not_eq_true] at h
    simp [nodeInst, search_tree_for_value, matchesPath, getField, h,
      extractNodeValue, pyOr, truthy, unwrapList, childVals, searchChildren]

lemma search_treeOnly1 (j : Nat) (hj : ("/" == TARGET_PATH_BASE j) = false) :
    search_tree_for_value treeOnly1 (TARGET_PATH_BASE j) =
      if (TARGET_PATH_BASE 1 == TARGET_PATH_BASE j) then some (.num 5) else none := by
  rw [treeOnly1, search_tree_for_value]
  rw [show matchesPath
      (JVal.dict [("FULL_PATH", .str "/"), ("CONTENTS", .dict [("i1", nodeInst 1 5)])])
      (TARGET_PATH_BASE j) = false by simp [matchesPath, getField, hj]]
  simp only [Bool.false_eq_true, if_false]
  rw [show childVals
      (JVal.dict [("FULL_PATH", .str "/"), ("CONTENTS", .dict [("i1", nodeInst 1 5)])]) =
      [nodeInst 1 5] by simp [childVals, getField, pyOr, truthy]]
  rw [searchChildren, search_nodeInst]
  by_cases h : (TARGET_PATH_BASE 1 == TARGET_PATH_BASE j) = true
  · simp [h]
  · simp only [Bool.not_eq_true] at h
    simp [h, searchChildren]

lemma search_treeBoth (j : Nat) (hj : ("/" == TARGET_PATH_BASE j) = false) :
    search_tree_for_value treeBoth (TARGET_PATH_BASE j) =
      if (TARGET_PATH_BASE 0 == TARGET_PATH_BASE j) then some (.num 3)
      else if (TARGET_PATH_BASE 1 == TARGET_PATH_BASE j) then some (.num 5)
      else none := by
  rw [treeBoth, search_tree_for_value]
  rw [show matchesPath
      (JVal.dict [("FULL_PATH", .str "/"),
        ("CONTENTS", .dict [("i0", nodeInst 0 3), ("i1", nodeInst 1 5)])])
      (TARGET_PATH_BASE j) = false by simp [matchesPath, getField, hj]]
  simp only [Bool.false_eq_true, if_false]
  rw [show childVals
      (JVal.dict [("FULL_PATH", .str "/"),
        ("CONTENTS", .dict [("i0", nodeInst 0 3), ("i1", nodeInst 1 5)])]) =
      [nodeInst 0 3, nodeInst 1 5] by simp [childVals, getField, pyOr, truthy]]
  rw [searchChildren, search_nodeInst]
  by_cases h0 : (TARGET_PATH_BASE 0 == TARGET_PATH_BASE j) = true
  · simp [h0]
  · simp only [Bool.not_eq_true] at h0
    simp only [h0, Bool.false_eq_true, if_false]
    rw [searchChildren, search_nodeInst]
    by_cases h1 : (TARGET_PATH_BASE 1 == TARGET_PATH_BASE j) = true
    · simp [h1]
    · simp only [Bool.not_eq_true] at h1
      simp [h0, h1, searchChildren]

lemma probe_treeOnly1 : probeCandidates treeOnly1 = some (TARGET_PATH_BASE 1) := by
  have h0 : search_tree_for_value treeOnly1 (TARGET_PATH_BASE 0) = none := by
    rw [search_treeOnly1 0 (by decide)]
    simp [show (TARGET_PATH_BASE 1 == TARGET_PATH_BASE 0) = false by decide]
  have h1 : search_tree_for_value treeOnly1 (TARGET_PATH_BASE 1) = some (.num 5) := by
    rw [search_treeOnly1 1 (by decide)]
    simp
  unfold probeCandidates
  rw [show List.range 2 = [0, 1] from rfl]
  simp [List.findSome?_cons, h0, h1]

lemma probe_treeBoth : probeCandidates treeBoth = some (TARGET_PATH_BASE 0) := by
  have h0 : search_tree_for_value treeBoth (TARGET_PATH_BASE 0) = some (.num 3) := by
    rw [search_treeBoth 0 (by decide)]
    simp
  unfold probeCandidates
  rw [show List.range 2 = [0, 1] from rfl]
  simp [List.findSome?_cons, h0]

/-- C4: the discovery probe checks the exact-path candidates strictly
in ascending index order — its result is the first index (over range 2)
whose candidate path has a present value, mapped to that path; in the
fixture tree where only index 1's path has a value it resolves to index
1's path, and in the tree where both are populated it resolves to index
0's path. -/
theorem discovery_first_candidate :
    (∀ tree : JVal, probeCandidates tree =
      ((List.range 2).find?
        (fun i => (search_tree_for_value tree (TARGET_PATH_BASE i)).isSome)).map
        TARGET_PATH_BASE) ∧
    probeCandidates treeOnly1 = some (TARGET_PATH_BASE 1) ∧
    probeCandidates treeBoth = some (TARGET_PATH_BASE 0) := by
  refine ⟨?_, probe_treeOnly1, probe_treeBoth⟩
  intro tree
  unfold probeCandidates
  rw [show List.range 2 = [0, 1] from rfl]
  cases h0 : (search_tree_for_value tree (TARGET_PATH_BASE 0)).isSome <;>
    cases h1 : (search_tree_for_value tree (TARGET_PATH_BASE 1)).isSome <;>
      simp [List.findSome?_cons, List.find?, h0, h1]

lemma all_zero_map (l : List ℚ) :
    (l.map (fun _ => (0 : ℚ))).all (fun r => r == 0) = true := by
  rw [List.all_eq_true]
  intro x hx
  simp only [List.mem_map] at hx
  obtain ⟨a, _, hx⟩ := hx
  subst hx
  simp

lemma get_dynamic_state (fs : List (Option JVal)) :
    ∀ (st : HWState) (b : Bool),
      (get_dynamic_output_path st b fs).1 = ⟨st.motor, st.leds.map (fun _ => 0)⟩ := by
  induction fs with
  | nil =>
      intro st b
      rfl
  | cons f rest ih =>
      intro st b
      cases f with
      | none =>
          show (get_dynamic_output_path (setAllLeds st (blinkLevel b)) (!b) rest).1 = _
          rw [ih]
          simp [setAllLeds, List.map_map, Function.comp]
      | some t =>
          rw [get_dynamic_output_path]
          by_cases ht : truthy t
          · rw [if_pos ht]
            cases hp : probeCandidates t with
            | some p =>
                simp [setAllLeds, List.map_map, Function.comp]
            | none =>
                dsimp only
                rw [ih]
                simp [setAllLeds, List.map_map, Function.comp]
          · rw [if_neg ht]
            rw [ih]
            simp [setAllLeds, List.map_map, Function.comp]

/-- C1: on every exit path of `main` — resolution failure, discovery
timeout, an exception (cancellation included) aborting discovery, and
interruption or unhandled failure in the steady-state loop — the final
hardware state is neutral: the motor ratio is 0 and every LED ratio is
0.  (On the paths that return before the loop the motor was never
driven and holds its construction-time 0; the discovery `finally` and
the `main` `finally` force the driven channels back to 0.) -/
theorem hardware_neutral_on_exit (env : Env) :
    (runMain env).1.motor = 0 ∧
    (runMain env).1.leds.all (fun r => r == 0) = true := by
  unfold runMain
  cases hr : env.resolveOk with
  | false =>
      simp only [hr, Bool.not_false, if_true]
      exact ⟨rfl, by decide⟩
  | true =>
      simp only [hr, Bool.not_true, Bool.false_eq_true, if_false]
      rcases hd : get_dynamic_output_path initHW true env.discFetches with ⟨st1, pOpt⟩
      have h := get_dynamic_state env.discFetches initHW true
      rw [hd] at h
      cases pOpt with
      | some path =>
          dsimp only
          refine ⟨rfl, ?_⟩
          exact all_zero_map _
      | none =>
          dsimp only
          have h2 : st1 = ⟨initHW.motor, initHW.leds.map (fun _ => 0)⟩ := h
          cases env.discAborted with
          | true =>
              simp only [if_true]
              rw [h2]
              exact ⟨rfl, all_zero_map _⟩
          | false =>
              simp only [Bool.false_eq_true, if_false]
              rw [h2]
              exact ⟨rfl, all_zero_map _⟩

/-- Environment for C7: resolution succeeds, the single discovery
attempt's fetch fails, the deadline then passes. -/
def envTimeout : Env := ⟨true, [none], false, [], LoopEnd.interrupted⟩

/-- Counterexample to C7 as stated: when discovery times out the
process ends in the `discTimeout` exit kind with all channels neutral,
but `main` merely returns (lines 100-101, 114-116), so the interpreter
exits with status 0 — there is no non-zero exit indication. -/
theorem discovery_timeout_exits_zero :
    (runMain envTimeout).2 = ExitKind.discTimeout ∧
    processExitsNonzero (runMain envTimeout).2 = false ∧
    (runMain envTimeout).1 = ⟨0, [0, 0, 0]⟩ := by
  refine ⟨?_, ?_, ?_⟩ <;> rfl

/-- C7 amended: if discovery terminates by timeout (no candidate
resolved, no abort), the LEDs are forced off, the hardware ends
neutral, and the process terminates before entering the steady-state
loop with a terminal error log (the `discTimeout` exit kind) — but with
a normal, zero exit status rather than a non-zero one. -/
theorem discovery_timeout_neutral (env : Env)
    (hres : env.resolveOk = true)
    (hnone : (get_dynamic_output_path initHW true env.discFetches).2 = none)
    (habort : env.discAborted = false) :
    (runMain env).2 = ExitKind.discTimeout ∧
    (runMain env).1.motor = 0 ∧
    (runMain env).1.leds.all (fun r => r == 0) = true ∧
    processExitsNonzero (runMain env).2 = false := by
  unfold runMain
  simp only [hres, Bool.not_true, Bool.false_eq_true, if_false]
  rcases hd : get_dynamic_output_path initHW true env.discFetches with ⟨st1, pOpt⟩
  rw [hd] at hnone
  have h := get_dynamic_state env.discFetches initHW true
  rw [hd] at h
  cases pOpt with
  | some path => exact absurd hnone (by simp)
  | none =>
      have h2 : st1 = ⟨initHW.motor, initHW.leds.map (fun _ => 0)⟩ := h
      dsimp only
      rw [habort]
      simp only [Bool.false_eq_true, if_false]
      rw [h2]
      refine ⟨?_, ?_, ?_, ?_⟩
      · trivial
      · rfl
      · exact all_zero_map _
      · trivial

/-- Witness for the amended C7 at the concrete timeout environment. -/
theorem discovery_timeout_neutral_witness :
    envTimeout.resolveOk = true ∧
    (get_dynamic_output_path initHW true envTimeout.discFetches).2 = none ∧
    envTimeout.discAborted = false ∧
    (runMain envTimeout).2 = ExitKind.discTimeout ∧
    processExitsNonzero (runMain envTimeout).2 = false := by
  have h := discovery_timeout_neutral envTimeout rfl rfl rfl
  exact ⟨rfl, rfl, rfl, h.1, h.2.2.2⟩

/-- Environment for C8: discovery resolves on the first attempt, the
loop runs no further cycles and is then interrupted during its sleep. -/
def envFound : Env := ⟨true, [some treeBoth], false, [], LoopEnd.interrupted⟩

/-- C8: when the interrupt arrives during the steady-state loop's sleep
the loop exits, the final state is exactly one application of the
`finally` cleanup (`hwOff`) to the pre-cleanup state — a single
release pass, after which the motor and every LED read ratio 0 — and
the run ends in the caught-interrupt exit kind. -/
theorem interrupt_cleanup (env : Env) (st1 : HWState) (path : String)
    (hres : env.resolveOk = true)
    (hfound : get_dynamic_output_path initHW true env.discFetches = (st1, some path))
    (hint : env.loopEnd = LoopEnd.interrupted) :
    (runMain env).2 = ExitKind.loopInterrupted ∧
    (runMain env).1 = hwOff (runLoop path st1 env.loopFetches) ∧
    (runMain env).1.motor = 0 ∧
    (runMain env).1.leds.all (fun r => r == 0) = true := by
  unfold runMain
  simp only [hres, Bool.not_true, Bool.false_eq_true, if_false]
  rw [hfound]
  dsimp only
  rw [hint]
  exact ⟨rfl, rfl, rfl, all_zero_map _⟩

/-- Witness for C8: discovery resolves from the fixture tree and the
interrupted run ends neutral. -/
theorem interrupt_cleanup_witness :
    get_dynamic_output_path initHW true envFound.discFetches =
      (⟨0, [0, 0, 0]⟩, some (TARGET_PATH_BASE 0)) ∧
    envFound.loopEnd = LoopEnd.interrupted ∧
    runMain envFound = (⟨0, [0, 0, 0]⟩, ExitKind.loopInterrupted) := by
  have hfound : get_dynamic_output_path initHW true envFound.discFetches =
      (⟨0, [0, 0, 0]⟩, some (TARGET_PATH_BASE 0)) := by
    show get_dynamic_output_path initHW true [some treeBoth] = _
    rw [get_dynamic_output_path]
    rw [show truthy treeBoth = true from rfl]
    simp only [if_true]
    rw [probe_treeBoth]
    rfl
  have h := interrupt_cleanup envFound ⟨0, [0, 0, 0]⟩ (TARGET_PATH_BASE 0) rfl hfound rfl
  refine ⟨hfound, rfl, ?_⟩
  refine Prod.ext ?_ ?_
  · rw [h.2.1]
    rfl
  · rw [h.1]
